import Mathlib

/-!
Verification of the ChittyAuth token lifecycle engine (`TokenManager` in the
repository's token-manager module) against its natural-language specification.

The engine is embedded shallowly:
* Cloudflare KV namespaces (`AUTH_TOKENS`, `AUTH_REVOCATIONS`,
  `AUTH_RATE_LIMITS`) become association lists of entries carrying an
  absolute expiry second (Cloudflare's `expirationTtl` semantics).
* The D1 `tokens` table becomes a list of `TokenRow` (columns as in the
  schema file).
* `Date.now()` becomes an explicit `now : Nat` (milliseconds) argument.
* The cryptographic primitives SHA-256 (`hashToken`) and HMAC-SHA256
  (`signPayload`) are external library calls, not repository code; they are
  abstracted as function parameters `h`/`sgn`.  `crypto.randomBytes`
  (used by `generateTokenId`) is abstracted as an explicit random-string
  argument.  The random audit-event id (`evt_...`) is not observed by any
  property and is omitted from the audit-event record.
* A JavaScript `throw` escaping an operation is modelled by the `.thrown`
  result constructor; structured `{valid:false, error}` returns by
  `.invalid`.
All other logic (branch order, store-presence guards, key formats,
truthiness checks, TTL arithmetic) is translated directly from the source.
-/

namespace ChittyAuth

/-- One emitted audit event, as passed to `logAuditEvent` (the random
`eventId` is omitted; it is never observed). -/
structure AuditEvent where
  eventType : String
  tokenId : Option String
  chittyId : Option String
  service : Option String
  success : Bool
  error : Option String
  timestamp : Nat
deriving Repr, DecidableEq

/-- The denormalized token projection stored in the `AUTH_TOKENS` KV cache
(provisioned by `provision`, refreshed by `updateTokenUsage`). -/
structure TokenData where
  tokenId : String
  chittyId : String
  scope : List String
  service : Option String
  createdAt : Nat
  expiresAt : Nat
  requestCount : Nat
  lastUsedAt : Option Nat
deriving Repr, DecidableEq

/-- A row of the D1 `tokens` table (columns as in the schema). -/
structure TokenRow where
  id : String
  token_hash : String
  chitty_id : String
  scope : List String
  service_name : Option String
  created_at : Nat
  expires_at : Nat
  last_used_at : Option Nat
  request_count : Nat
  revoked_at : Option Nat
  revocation_reason : Option String
deriving Repr, DecidableEq

/-- The revocation marker value written to `AUTH_REVOCATIONS`. -/
structure RevMarker where
  tokenId : String
  reason : String
  revokedAt : Nat
deriving Repr, DecidableEq

/-- A KV entry: key, value, and the absolute second at which the entry
expires (put time + `expirationTtl`). -/
structure KVEntry (α : Type) where
  key : String
  value : α
  expiresAtSec : Nat
deriving Repr, DecidableEq

/-- KV `get` at time `nowSec`: an entry is visible while `nowSec` is before
its expiry second. -/
def kvGet {α : Type} (nowSec : Nat) (kv : List (KVEntry α)) (k : String) :
    Option α :=
  match kv.find? (fun e => e.key == k) with
  | some e => if nowSec < e.expiresAtSec then some e.value else none
  | none => none

/-- KV `put` with `expirationTtl := ttl` at time `nowSec` (replaces any
existing entry under the same key). -/
def kvPut {α : Type} (nowSec : Nat) (kv : List (KVEntry α)) (k : String)
    (v : α) (ttl : Nat) : List (KVEntry α) :=
  ⟨k, v, nowSec + ttl⟩ :: kv.filter (fun e => e.key ≠ k)

/-- KV `delete`. -/
def kvDelete {α : Type} (kv : List (KVEntry α)) (k : String) :
    List (KVEntry α) :=
  kv.filter (fun e => e.key ≠ k)

/-- The engine's environment: store bindings (each `has…` flag models
whether the corresponding `this.env.…` binding is present), store contents,
the emitted audit-event trace (most recent first), and configuration. -/
structure Env where
  hasDB : Bool
  hasTokensKV : Bool
  hasRevocationsKV : Bool
  hasRateLimitsKV : Bool
  db : List TokenRow
  tokens : List (KVEntry TokenData)
  revocations : List (KVEntry RevMarker)
  rateLimits : List (KVEntry Nat)
  audit : List AuditEvent
  environment : Option String
  defaultExpiry : Nat
deriving Repr, DecidableEq

/-- `logAuditEvent`: prepend the event to the audit trace. -/
def logAuditEvent (st : Env) (e : AuditEvent) : Env :=
  { st with audit := e :: st.audit }

/-- The structured rate-limit policy returned by `getRateLimit`. -/
structure RateLimitPolicy where
  requests : Nat
  window : String
deriving Repr, DecidableEq

/-- `getRateLimit(scope)`: tiered policy by scope content. -/
def getRateLimit (scope : List String) : RateLimitPolicy :=
  if scope.contains "admin:*" then ⟨10000, "1h"⟩
  else if scope.contains "service:*" then ⟨5000, "1h"⟩
  else if scope.length > 3 then ⟨1000, "1h"⟩
  else ⟨100, "1h"⟩

/-- Boolean test that `p` is an initial segment of `l` (used for the
`token.startsWith(...)` checks). -/
def strHasPfx : List Char → List Char → Bool
  | [], _ => true
  | _ :: _, [] => false
  | p :: ps, c :: cs => p == c && strHasPfx ps cs

/-- The recognized token prefixes of `isValidTokenFormat`. -/
def validTokenPfxs : List String := ["ca_live_", "ca_test_", "ca_dev_", "svc_"]

/-- `isValidTokenFormat(token)`: the token starts with a recognized
environment-specific prefix. -/
def isValidTokenFormat (token : String) : Bool :=
  validTokenPfxs.any (fun p => strHasPfx p.data token.data)

/-- The whitespace class of the JavaScript regex `\s`: the ASCII members
plus NBSP, OGHAM SPACE MARK, the U+2000–U+200A range, LINE/PARAGRAPH
SEPARATOR, NARROW NO-BREAK SPACE, MEDIUM MATHEMATICAL SPACE, IDEOGRAPHIC
SPACE and the BOM. -/
def isJsSpace (c : Char) : Bool :=
  c == ' ' || c == '\t' || c == '\n' || c == '\r' || c == '\x0b' || c == '\x0c' ||
  c == '\u00A0' || c == '\u1680' || ('\u2000' ≤ c && c ≤ '\u200A') ||
  c == '\u2028' || c == '\u2029' || c == '\u202F' || c == '\u205F' ||
  c == '\u3000' || c == '\uFEFF'

/-- The lowercase letters of the case-insensitive `Bearer` pattern. -/
def bearerChars : List Char := ['b', 'e', 'a', 'r', 'e', 'r']

/-- `token.replace(/^Bearer\s+/i, '')` on the character list: if the first
six characters spell `Bearer` case-insensitively and are followed by at
least one whitespace character, drop them and every following whitespace
character; otherwise leave the list unchanged. -/
def stripBearerList (l : List Char) : List Char :=
  if (l.take 6).map Char.toLower = bearerChars then
    match l.drop 6 with
    | c :: cs => if isJsSpace c then cs.dropWhile isJsSpace else l
    | [] => l
  else l

/-- `token.replace(/^Bearer\s+/i, '')`. -/
def stripBearer (s : String) : String :=
  String.mk (stripBearerList s.data)

/-- The base64url alphabet. -/
def b64urlAlphabet : List Char :=
  "ABCDEFGHIJKLMNOPQRSTUVWXYZabcdefghijklmnopqrstuvwxyz0123456789-_".data

/-- Index into the base64url alphabet. -/
def b64c (n : Nat) : Char := b64urlAlphabet.getD n 'A'

/-- Unpadded base64url encoding of a byte list (Node's
`Buffer.toString('base64url')`). -/
def base64urlEncodeBytes : List Nat → List Char
  | [] => []
  | [a] => [b64c (a / 4), b64c (a % 4 * 16)]
  | [a, b] => [b64c (a / 4), b64c (a % 4 * 16 + b / 16), b64c (b % 16 * 4)]
  | a :: b :: c :: rest =>
    b64c (a / 4) :: b64c (a % 4 * 16 + b / 16) ::
      b64c (b % 16 * 4 + c / 64) :: b64c (c % 64) :: base64urlEncodeBytes rest

/-- base64url of a string (the encoded payloads are ASCII, so code points
coincide with UTF-8 bytes). -/
def base64url (s : String) : String :=
  String.mk (base64urlEncodeBytes (s.data.map Char.toNat))

/-- `generateToken(tokenId, chittyId, service)`: sign the payload, build
`tokenId_timestamp_signature`, base64url-encode it and prepend the
environment prefix.  `sgn` abstracts the HMAC-SHA256-base64url digest of
`signPayload`; the source truncates it to 32 characters. -/
def generateToken (sgn : String → String) (environment : Option String)
    (tokenId chittyId service : String) (timestamp : Nat) : String :=
  let payload := tokenId ++ ":" ++ chittyId ++ ":" ++ service ++ ":" ++ toString timestamp
  let signature := (sgn payload).take 32
  let tokenData := tokenId ++ "_" ++ toString timestamp ++ "_" ++ signature
  let encoded := base64url tokenData
  let env := match environment with
    | none => "live"
    | some s => if s = "" then "live" else s
  let pfx := if env = "production" then "ca_live_" else "ca_" ++ env ++ "_"
  pfx ++ encoded

/-- The expiry argument resolution `(expiresIn || this.defaultExpiry)`
(`0` is falsy in JavaScript). -/
def resolveExpiry (expiresIn : Option Nat) (defaultExpiry : Nat) : Nat :=
  match expiresIn with
  | some n => if n = 0 then defaultExpiry else n
  | none => defaultExpiry

/-- The value returned by a successful `provision` (the ISO rendering of
`expiresAt` is kept as the underlying instant). -/
structure ProvisionResult where
  token : String
  tokenId : String
  scope : List String
  expiresAt : Nat
  rateLimit : RateLimitPolicy
deriving Repr, DecidableEq

/-- `provision({chittyId, scope, service, expiresIn})`.  `rnd` abstracts the
20-char random string of `generateTokenId`; `h`/`sgn` abstract the hash and
signature primitives.  A thrown `Error` is `.error` with its message.
The input options are `Option`s; `none` or an empty string is falsy (an
array is always truthy, even when empty, exactly as in the source's
`!chittyId || !scope || !service` guard). -/
def provision (h sgn : String → String) (rnd : String) (now : Nat)
    (chittyId : Option String) (scope : Option (List String))
    (service : Option String) (expiresIn : Option Nat) (st : Env) :
    Except String (ProvisionResult × Env) :=
  match chittyId, scope, service with
  | some cid, some sc, some svc =>
    if cid = "" ∨ svc = "" then
      .error "Missing required parameters: chittyId, scope, service"
    else
      let tokenId := "tok_" ++ rnd
      let createdAt := now
      let expiresAt := createdAt + resolveExpiry expiresIn st.defaultExpiry * 1000
      let token := generateToken sgn st.environment tokenId cid svc now
      let tokenHash := h token
      let row : TokenRow :=
        ⟨tokenId, tokenHash, cid, sc, none, createdAt, expiresAt, none, 0, none, none⟩
      let st1 := if st.hasDB then { st with db := st.db ++ [row] } else st
      let st2 :=
        if st1.hasTokensKV then
          let td : TokenData := ⟨tokenId, cid, sc, some svc, createdAt, expiresAt, 0, none⟩
          let ttl := (expiresAt - createdAt) / 1000
          { st1 with tokens := kvPut (now / 1000) st1.tokens ("token:" ++ tokenHash) td ttl }
        else st1
      let rl := getRateLimit sc
      let st3 := logAuditEvent st2
        ⟨"token_provision", some tokenId, some cid, some svc, true, none, createdAt⟩
      .ok (⟨token, tokenId, sc, expiresAt, rl⟩, st3)
  | _, _, _ => .error "Missing required parameters: chittyId, scope, service"

/-- The outcome of `validate`: a structured `{valid:false, error}`, a
structured `{valid:true, ...}`, or an exception escaping the call. -/
inductive Vres where
  | invalid (error : String)
  | valid (tokenId chittyId : String) (scope : List String)
      (service : Option String) (expiresAt : Nat) (rateLimitRemaining : Nat)
  | thrown (msg : String)
deriving Repr, DecidableEq

/-- `checkRateLimit(tokenHash, tokenData)`: `.error` models the thrown
`Error('Rate limit exceeded')`. -/
def checkRateLimit (tokenHash : String) (tokenData : TokenData) (now : Nat)
    (st : Env) : Except String (Nat × Env) :=
  if !st.hasRateLimitsKV then .ok (999, st)
  else
    let window : Nat := 3600
    let nowSec := now / 1000
    let windowStart : Int := (nowSec : Int) - (window : Int)
    let rl := getRateLimit tokenData.scope
    let key := "ratelimit:" ++ tokenHash ++ ":" ++ toString windowStart
    let count := (kvGet nowSec st.rateLimits key).getD 0
    if count ≥ rl.requests then .error "Rate limit exceeded"
    else .ok (rl.requests - count - 1,
      { st with rateLimits := kvPut nowSec st.rateLimits key (count + 1) window })

/-- `updateTokenUsage(tokenHash, tokenData)`: bump `request_count` and
`last_used_at` in D1, and rewrite the KV cache entry with the remaining
lifetime as TTL when that lifetime is positive. -/
def updateTokenUsage (tokenHash : String) (tokenData : TokenData) (now : Nat)
    (st : Env) : Env :=
  let st1 :=
    if st.hasDB then
      { st with db := st.db.map (fun (r : TokenRow) =>
          if r.token_hash = tokenHash then
            { r with last_used_at := some now, request_count := r.request_count + 1 }
          else r) }
    else st
  if st1.hasTokensKV then
    let td := { tokenData with lastUsedAt := some now,
                               requestCount := tokenData.requestCount + 1 }
    let ttl := (tokenData.expiresAt - now) / 1000
    if ttl > 0 then
      { st1 with tokens := kvPut (now / 1000) st1.tokens ("token:" ++ tokenHash) td ttl }
    else st1
  else st1

/-- The body of `validate` after the falsy guard and the Bearer strip:
format gate, revocation gate, KV-then-D1 lookup, expiry gate, usage update,
rate limit, audit. -/
def validateStripped (h : String → String) (now : Nat) (st : Env)
    (token : String) : Vres × Env :=
  if !isValidTokenFormat token then (.invalid "Invalid token format", st)
  else
    let tokenHash := h token
    let nowSec := now / 1000
    if st.hasRevocationsKV &&
        (kvGet nowSec st.revocations ("revoked:" ++ tokenHash)).isSome then
      (.invalid "Token has been revoked",
       logAuditEvent st
         ⟨"token_validation_failed", none, none, none, false, some "Token revoked", now⟩)
    else
      let fromKV :=
        if st.hasTokensKV then kvGet nowSec st.tokens ("token:" ++ tokenHash)
        else none
      let tokenData :=
        match fromKV with
        | some td => some td
        | none =>
          if st.hasDB then
            match st.db.find? (fun (r : TokenRow) => r.token_hash == tokenHash && r.revoked_at == none) with
            | some r =>
              some ⟨r.id, r.chitty_id, r.scope, r.service_name, r.created_at,
                r.expires_at, r.request_count, none⟩
            | none => none
          else none
      match tokenData with
      | none =>
        (.invalid "Token not found",
         logAuditEvent st
           ⟨"token_validation_failed", none, none, none, false, some "Token not found", now⟩)
      | some td =>
        if td.expiresAt < now then
          (.invalid "Token has expired",
           logAuditEvent st
             ⟨"token_validation_failed", some td.tokenId, none, none, false,
              some "Token expired", now⟩)
        else
          let st1 := updateTokenUsage tokenHash td now st
          match checkRateLimit tokenHash td now st1 with
          | .error msg => (.thrown msg, st1)
          | .ok (remaining, st2) =>
            (.valid td.tokenId td.chittyId td.scope td.service td.expiresAt remaining,
             logAuditEvent st2
               ⟨"token_validated", some td.tokenId, some td.chittyId, none, true, none, now⟩)

/-- `validate(token)`: the `!token` falsy guard (the empty string is the
only falsy string), then the Bearer strip, then the gates. -/
def validate (h : String → String) (now : Nat) (st : Env) (token : String) :
    Vres × Env :=
  if token = "" then (.invalid "Invalid token format", st)
  else validateStripped h now st (stripBearer token)

/-- The value returned by `revoke` (always `success:true`). -/
structure RevokeResult where
  success : Bool
  tokenId : String
  revokedAt : Nat
  reason : String
deriving Repr, DecidableEq

/-- `revoke(tokenId, reason)`: unconditionally set `revoked_at` on the D1
row, then look up its hash; when found, write the revocation marker with a
90-day TTL and delete the cache entry; always emit `token_revoked` and
return success. -/
def revoke (tokenId : String) (reason : String) (now : Nat) (st : Env) :
    RevokeResult × Env :=
  let nowSec := now / 1000
  let st1 :=
    if st.hasDB then
      let stU := { st with db := st.db.map (fun (r : TokenRow) =>
          if r.id = tokenId then { r with revoked_at := some now } else r) }
      match stU.db.find? (fun (r : TokenRow) => r.id == tokenId) with
      | some r =>
        let marker : RevMarker := ⟨tokenId, reason, now⟩
        let stR :=
          if stU.hasRevocationsKV then
            { stU with revocations := kvPut nowSec stU.revocations ("revoked:" ++ r.token_hash) marker (86400 * 90) }
          else stU
        if stR.hasTokensKV then
          { stR with tokens := kvDelete stR.tokens ("token:" ++ r.token_hash) }
        else stR
      | none => stU
    else st
  let st2 := logAuditEvent st1 ⟨"token_revoked", some tokenId, none, none, true, none, now⟩
  (⟨true, tokenId, now, reason⟩, st2)

/-- The statistics aggregate of `getStats` (D1 required). -/
structure Stats where
  totalTokens : Nat
  activeTokens : Nat
  revokedTokens : Nat
  expiredTokens : Nat
deriving Repr, DecidableEq

/-- `getStats()`: active means `revoked_at IS NULL AND expires_at > now`;
expired means `expires_at <= now`. -/
def getStats (now : Nat) (st : Env) : Option Stats :=
  if !st.hasDB then none
  else some
    ⟨st.db.length,
     (st.db.filter (fun r => r.revoked_at == none && decide (now < r.expires_at))).length,
     (st.db.filter (fun r => r.revoked_at != none)).length,
     (st.db.filter (fun r => decide (r.expires_at ≤ now))).length⟩

end ChittyAuth

/-! ## Concrete scenarios used by the closed theorems below -/

namespace ChittyAuth

/-- Identity stand-in for the abstract hash/signature primitives in the
concrete scenarios below (any function works; identity keeps values
readable). -/
def hid : String → String := fun s => s

/-- A fresh environment with every store bound and empty. -/
def st0 : Env := ⟨true, true, true, true, [], [], [], [], [], none, 2592000⟩

/-- A cached token used by the rate-limit scenarios. -/
def tdC : TokenData := ⟨"tok_x", "cid", ["a"], some "svc", 0, 999999999999, 0, none⟩

/-- State with `tdC` cached and the rate counter for arrival-second 7200
(key suffix `7200 - 3600 = 3600`) already at the tier limit 100. -/
def stC2 : Env :=
  ⟨true, true, true, true, [], [⟨"token:ca_live_x", tdC, 999999999⟩],
   [], [⟨"ratelimit:ca_live_x:3600", 100, 10800⟩], [], none, 2592000⟩

/-- A stored durable row used by the revocation scenarios. -/
def rowC : TokenRow :=
  ⟨"tok_x", "ca_live_x", "cid", ["a"], none, 0, 999999999999, none, 0, none, none⟩

/-- State whose durable store holds exactly `rowC`. -/
def stC5 : Env := ⟨true, true, true, true, [rowC], [], [], [], [], none, 2592000⟩

/-- A cached token that expires at instant 5000000. -/
def tdC8 : TokenData := ⟨"tok_x", "cid", ["a"], some "svc", 0, 5000000, 0, none⟩

/-- State with `tdC8` cached (cache entry TTL far in the future). -/
def stC8 : Env :=
  ⟨true, true, true, true, [], [⟨"token:ca_live_x", tdC8, 999999999⟩],
   [], [], [], none, 2592000⟩

/-! ## Helper lemmas -/

theorem strHasPfx_append (p r : List Char) : strHasPfx p (p ++ r) = true := by
  induction p with
  | nil => rfl
  | cons c cs ih => simp [strHasPfx, ih]

theorem strHasPfx_exists {p l : List Char} (hp : strHasPfx p l = true) :
    ∃ r, l = p ++ r := by
  induction p generalizing l with
  | nil => exact ⟨l, rfl⟩
  | cons c cs ih =>
    cases l with
    | nil => simp [strHasPfx] at hp
    | cons d ds =>
      simp only [strHasPfx, Bool.and_eq_true, beq_iff_eq] at hp
      obtain ⟨h1, h2⟩ := hp
      obtain ⟨r, hr⟩ := ih h2
      exact ⟨r, by simp [h1, hr]⟩

/-- A well-formed token is untouched by the Bearer strip (all recognized
token prefixes start with `c` or `s`, not `b`). -/
theorem stripBearer_of_format {t : String} (hf : isValidTokenFormat t = true) :
    stripBearer t = t := by
  simp only [isValidTokenFormat, validTokenPfxs, List.any_cons, List.any_nil,
    Bool.or_eq_true, Bool.or_false] at hf
  have hfix : stripBearerList t.data = t.data := by
    rcases hf with h | h | h | h <;>
    · obtain ⟨r, hr⟩ := strHasPfx_exists h
      simp [stripBearerList, hr, List.take, bearerChars]
  calc stripBearer t = String.mk t.data := by rw [stripBearer, hfix]
    _ = t := by cases t; rfl

theorem kvGet_nil {α : Type} (nowSec : Nat) (k : String) :
    kvGet nowSec ([] : List (KVEntry α)) k = none := rfl

theorem kvGet_put_same {α : Type} (nowSec putSec : Nat) (kv : List (KVEntry α))
    (k : String) (v : α) (ttl : Nat) :
    kvGet nowSec (kvPut putSec kv k v ttl) k
      = if nowSec < putSec + ttl then some v else none := by
  simp [kvGet, kvPut, List.find?]

theorem checkRateLimit_error_msg {tokenHash : String} {td : TokenData} {now : Nat}
    {st : Env} {m : String} (hc : checkRateLimit tokenHash td now st = .error m) :
    m = "Rate limit exceeded" := by
  simp only [checkRateLimit] at hc
  split at hc
  · exact absurd hc (by simp)
  · split at hc
    · exact (Except.error.injEq _ _ ).mp hc |>.symm
    · exact absurd hc (by simp)

theorem updateTokenUsage_audit (tokenHash : String) (td : TokenData) (now : Nat)
    (st : Env) : (updateTokenUsage tokenHash td now st).audit = st.audit := by
  simp only [updateTokenUsage]
  split <;> split <;> (try split) <;> rfl

theorem checkRateLimit_ok_audit {tokenHash : String} {td : TokenData} {now rem : Nat}
    {st st2 : Env} (hc : checkRateLimit tokenHash td now st = .ok (rem, st2)) :
    st2.audit = st.audit := by
  simp only [checkRateLimit] at hc
  split at hc
  · cases hc; rfl
  · split at hc
    · exact absurd hc (by simp)
    · cases hc; rfl

/-- Exhaustive description of the terminal branches of the post-strip body of
`validate`: the four structured failures (with their audit effect), the
escaping rate-limit exception, and success. -/
theorem validateStripped_branches (h : String → String) (now : Nat) (st : Env)
    (token : String) :
    validateStripped h now st token = (.invalid "Invalid token format", st)
  ∨ validateStripped h now st token =
      (.invalid "Token has been revoked",
       logAuditEvent st ⟨"token_validation_failed", none, none, none, false, some "Token revoked", now⟩)
  ∨ validateStripped h now st token =
      (.invalid "Token not found",
       logAuditEvent st ⟨"token_validation_failed", none, none, none, false, some "Token not found", now⟩)
  ∨ (∃ tid, validateStripped h now st token =
      (.invalid "Token has expired",
       logAuditEvent st ⟨"token_validation_failed", some tid, none, none, false, some "Token expired", now⟩))
  ∨ (∃ td : TokenData, validateStripped h now st token =
      (.thrown "Rate limit exceeded", updateTokenUsage (h token) td now st))
  ∨ (∃ (td : TokenData) (rem : Nat) (st2 : Env),
      checkRateLimit (h token) td now (updateTokenUsage (h token) td now st) = .ok (rem, st2) ∧
      validateStripped h now st token =
      (.valid td.tokenId td.chittyId td.scope td.service td.expiresAt rem,
       logAuditEvent st2 ⟨"token_validated", some td.tokenId, some td.chittyId, none, true, none, now⟩)) := by
  simp only [validateStripped]
  split
  · exact Or.inl rfl
  · split
    · exact Or.inr (Or.inl rfl)
    · split
      · exact Or.inr (Or.inr (Or.inl rfl))
      · next td _ =>
        split
        · exact Or.inr (Or.inr (Or.inr (Or.inl ⟨td.tokenId, rfl⟩)))
        · split
          · next msg hc =>
            have := checkRateLimit_error_msg hc
            subst this
            exact Or.inr (Or.inr (Or.inr (Or.inr (Or.inl ⟨td, rfl⟩))))
          · next rem st2 hc =>
            exact Or.inr (Or.inr (Or.inr (Or.inr (Or.inr ⟨td, rem, st2, hc, rfl⟩))))

/-- `find?` by id commutes with `revoke`'s unconditional `revoked_at` update
(the update preserves `id`). -/
theorem revoke_db_find (l : List TokenRow) (tid : String) (now : Nat) :
    (l.map (fun (r : TokenRow) =>
        if r.id = tid then { r with revoked_at := some now } else r)).find?
      (fun (r : TokenRow) => r.id == tid)
    = (l.find? (fun (r : TokenRow) => r.id == tid)).map
        (fun r => { r with revoked_at := some now }) := by
  induction l with
  | nil => rfl
  | cons a l ih =>
    by_cases hx : a.id = tid
    · have hb : (a.id == tid) = true := beq_iff_eq.mpr hx
      simp [List.find?, hx, hb, ih]
    · have hb : (a.id == tid) = false := beq_eq_false_iff_ne.mpr hx
      simp [List.find?, hx, hb, ih]

theorem revoke_flags (tokenId reason : String) (now : Nat) (st : Env) :
    (revoke tokenId reason now st).2.hasDB = st.hasDB ∧
    (revoke tokenId reason now st).2.hasTokensKV = st.hasTokensKV ∧
    (revoke tokenId reason now st).2.hasRevocationsKV = st.hasRevocationsKV ∧
    (revoke tokenId reason now st).2.hasRateLimitsKV = st.hasRateLimitsKV := by
  simp only [revoke]
  split
  · split
    · split <;> split <;> exact ⟨rfl, rfl, rfl, rfl⟩
    · exact ⟨rfl, rfl, rfl, rfl⟩
  · exact ⟨rfl, rfl, rfl, rfl⟩

theorem revoke_db {st : Env} (tokenId reason : String) (now : Nat)
    (hDB : st.hasDB = true) :
    (revoke tokenId reason now st).2.db
      = st.db.map (fun (r : TokenRow) =>
          if r.id = tokenId then { r with revoked_at := some now } else r) := by
  simp only [revoke, hDB, if_true]
  split
  · split <;> split <;> rfl
  · rfl

theorem revoke_revocations {st : Env} {tokenId : String} {row : TokenRow}
    (reason : String) (now : Nat)
    (hDB : st.hasDB = true) (hRev : st.hasRevocationsKV = true)
    (hfind : st.db.find? (fun (r : TokenRow) => r.id == tokenId) = some row) :
    (revoke tokenId reason now st).2.revocations
      = kvPut (now / 1000) st.revocations ("revoked:" ++ row.token_hash)
          ⟨tokenId, reason, now⟩ (86400 * 90) := by
  have hhash :
      (if row.id = tokenId then { row with revoked_at := some now } else row).token_hash
        = row.token_hash := by
    split <;> rfl
  simp only [revoke, hDB, if_true, revoke_db_find, hfind, Option.map_some', hRev, hhash]
  split <;> simp [hhash, logAuditEvent]

theorem getRateLimit_pos (sc : List String) : 0 < (getRateLimit sc).requests := by
  unfold getRateLimit
  split_ifs <;> decide

theorem updateTokenUsage_rateLimits (a : String) (td : TokenData) (n : Nat)
    (st : Env) :
    (updateTokenUsage a td n st).rateLimits = st.rateLimits ∧
    (updateTokenUsage a td n st).hasRateLimitsKV = st.hasRateLimitsKV := by
  simp only [updateTokenUsage]
  split <;> split <;> (try split) <;> exact ⟨rfl, rfl⟩

/-- A cache hit on a well-formed, unrevoked, unexpired token validates
successfully (with whatever remaining-budget value the rate limiter
computes). -/
theorem validate_cache_hit (h : String → String) (now : Nat) (st : Env)
    (token : String) (td : TokenData)
    (hfmt : isValidTokenFormat token = true)
    (hnorev : kvGet (now / 1000) st.revocations ("revoked:" ++ h token) = none)
    (hkv : st.hasTokensKV = true)
    (hhit : kvGet (now / 1000) st.tokens ("token:" ++ h token) = some td)
    (hexp : ¬ td.expiresAt < now)
    (hrlst : st.rateLimits = []) :
    ∃ rem, (validate h now st token).1
      = .valid td.tokenId td.chittyId td.scope td.service td.expiresAt rem := by
  have hne : token ≠ "" := fun he => by rw [he] at hfmt; exact absurd hfmt (by decide)
  have hstrip := stripBearer_of_format hfmt
  simp only [validate, if_neg hne, hstrip, validateStripped, hfmt, Bool.not_true,
    Bool.false_eq_true, if_false, hnorev, Option.isSome_none, Bool.and_false, hkv,
    if_true, hhit, if_neg hexp]
  have hpres := updateTokenUsage_rateLimits (h token) td now st
  by_cases hrlf : st.hasRateLimitsKV = true
  · have hcr : checkRateLimit (h token) td now (updateTokenUsage (h token) td now st)
        = .ok ((getRateLimit td.scope).requests - 0 - 1,
            { (updateTokenUsage (h token) td now st) with
                rateLimits := kvPut (now / 1000) [] ("ratelimit:" ++ h token ++ ":" ++
                  toString (((now / 1000 : Nat) : Int) - 3600)) (0 + 1) 3600 }) := by
      simp only [checkRateLimit, hpres.2, hrlf, Bool.not_true, Bool.false_eq_true,
        if_false, hpres.1, hrlst, kvGet_nil, Option.getD_none]
      rw [if_neg (by exact Nat.not_le_of_lt (getRateLimit_pos td.scope))]
      norm_cast
    rw [hcr]
    exact ⟨_, rfl⟩
  · have hcr : checkRateLimit (h token) td now (updateTokenUsage (h token) td now st)
        = .ok (999, updateTokenUsage (h token) td now st) := by
      simp only [checkRateLimit, hpres.2]
      rw [if_pos (by simp [hrlf])]
    rw [hcr]
    exact ⟨_, rfl⟩

/-- `generateToken` under the default (absent) environment configuration. -/
theorem generateToken_none (sgn : String → String) (tid cid svc : String)
    (ts : Nat) :
    generateToken sgn none tid cid svc ts
      = "ca_live_" ++ base64url (tid ++ "_" ++ toString ts ++ "_"
          ++ (sgn (tid ++ ":" ++ cid ++ ":" ++ svc ++ ":" ++ toString ts)).take 32) := rfl

theorem fmt_ca_live (s : String) : isValidTokenFormat ("ca_live_" ++ s) = true := by
  simp only [isValidTokenFormat, validTokenPfxs, List.any_cons, List.any_nil,
    Bool.or_eq_true, String.data_append]
  exact Or.inl (strHasPfx_append _ _)

/-- The Bearer strip removes `Bearer ` plus any following whitespace when the
remainder does not itself begin with whitespace. -/
theorem stripBearer_bearer_append (t : String)
    (h2 : t.data.head?.all (fun c => !isJsSpace c) = true) :
    stripBearer ("Bearer " ++ t) = t := by
  have hdata : ("Bearer " ++ t).data = 'B' :: 'e' :: 'a' :: 'r' :: 'e' :: 'r' :: ' ' :: t.data := by
    rw [String.data_append]; rfl
  have hdrop : t.data.dropWhile isJsSpace = t.data := by
    cases hd : t.data with
    | nil => rfl
    | cons c cs =>
      rw [hd] at h2
      simp only [List.head?, Option.all_some, Bool.not_eq_true'] at h2
      simp [List.dropWhile, h2]
  rw [stripBearer, hdata]
  simp only [stripBearerList, List.take, List.map, List.drop]
  norm_num [bearerChars, isJsSpace, hdrop]
  rw [if_pos (by decide)]

/-! ## Claim theorems -/

/-- Claim C1: after `revoke(tokenId)` completes, every `validate` call on that
token's plaintext string made within the 90-day revocation grace window
returns the structured invalid result `Token has been revoked`, for every
starting state (in particular, whatever the cache holds and whether or not
the cache entry was deleted), because the revocation marker keyed by the
token's hash is consulted before any cache entry is trusted. -/
theorem revocation_finality (h : String → String) (st : Env)
    (tokenId token reason : String) (tRev tVal : Nat) (row : TokenRow)
    (hDB : st.hasDB = true) (hRevKV : st.hasRevocationsKV = true)
    (hfind : st.db.find? (fun (r : TokenRow) => r.id == tokenId) = some row)
    (hhash : row.token_hash = h token)
    (hfmt : isValidTokenFormat token = true)
    (hgrace : tVal / 1000 < tRev / 1000 + 7776000) :
    (validate h tVal (revoke tokenId reason tRev st).2 token).1
      = .invalid "Token has been revoked" := by
  have hne : token ≠ "" := by
    intro he; rw [he] at hfmt; exact absurd hfmt (by decide)
  have hstrip := stripBearer_of_format hfmt
  have hrev := revoke_revocations reason tRev hDB hRevKV hfind
  have hflag := (revoke_flags tokenId reason tRev st).2.2.1
  rw [hhash] at hrev
  simp only [validate, if_neg hne, hstrip, validateStripped, hfmt, Bool.not_true,
    Bool.false_eq_true, if_false, hflag, hRevKV, hrev, kvGet_put_same]
  simp [hgrace]

/-- Witness for C1: revoking `tok_x` at time 0 in a state holding its durable
row, then validating its plaintext at time 1000, yields `Token has been
revoked`. -/
theorem revocation_finality_witness :
    stC5.hasDB = true ∧ stC5.hasRevocationsKV = true ∧
    stC5.db.find? (fun (r : TokenRow) => r.id == "tok_x") = some rowC ∧
    rowC.token_hash = hid "ca_live_x" ∧
    isValidTokenFormat "ca_live_x" = true ∧
    1000 / 1000 < 0 / 1000 + 7776000 ∧
    (validate hid 1000 (revoke "tok_x" "test" 0 stC5).2 "ca_live_x").1
      = .invalid "Token has been revoked" :=
  ⟨by decide, by decide, by decide, by decide, by decide, by decide,
   revocation_finality hid stC5 "tok_x" "ca_live_x" "test" 0 1000 rowC
     (by decide) (by decide) (by decide) (by decide) (by decide) (by decide)⟩

/-- Claim C2 (code bug): rate-limit counters are NOT shared across a fixed
clock-aligned window.  `stC2` holds a counter already at the tier limit 100
for the key written by arrivals at second 7200 (`windowStart = 3600`); a
further `validate` at second 7201 — inside the same clock-aligned hour
[7200, 10800) — gets a fresh counter (key suffix 3601) and succeeds with
`rateLimitRemaining = 99` instead of failing `RateLimited`, because
`checkRateLimit` keys the counter by `nowSec - 3600`, which changes every
second. -/
theorem ratelimit_counter_not_shared_in_window :
    (validate hid 7201000 stC2 "ca_live_x").1
      = .valid "tok_x" "cid" ["a"] (some "svc") 999999999999 99 := by decide

set_option maxRecDepth 4000 in
/-- Claim C3 counterexample: the round trip does NOT always return the same
serviceName before expiry.  Provisioning at 500 ms with a 3600 s TTL gives
`expiresAt = 3600500`; validating at 3600100 ms — strictly before expiry —
misses the cache (whose entry lapses at second 3600) and falls back to D1,
whose row has `service_name` NULL because provision's INSERT omits that
column: the result is `valid` with the same chittyId and scope but
`service = none` instead of `some "svc"`. -/
theorem roundtrip_loses_service_on_cache_miss :
    (match provision hid hid "AAAAAAAAAAAAAAAAAAAA" 500 (some "cid")
        (some ["chittyid:read"]) (some "svc") (some 3600) st0 with
      | .ok (pr, st1) => (pr.expiresAt, (validate hid 3600100 st1 pr.token).1)
      | .error _ => (0, .invalid ""))
      = (3600500,
         .valid "tok_AAAAAAAAAAAAAAAAAAAA" "cid" ["chittyid:read"] none 3600500 99)
    ∧ 3600100 < 3600500 := by decide

/-- Claim C3 amended: for valid provisioning inputs (non-empty `chittyId`
and `service`, scope list present) under the default environment
configuration with the token cache bound and no stale revocation markers or
rate counters, `validate` on the provisioned plaintext succeeds and returns
the same `chittyId`, `scope` and `service` that were provisioned, as long
as the validation happens while the cache entry written at provisioning is
still live (its TTL is the token lifetime at one-second granularity); past
the cache entry's life the D1 fallback loses the serviceName. -/
theorem provision_validate_roundtrip (h sgn : String → String)
    (rnd cid svc : String) (sc : List String) (eIn : Option Nat)
    (now now2 : Nat) (st : Env)
    (hcid : cid ≠ "") (hsvc : svc ≠ "")
    (henv : st.environment = none) (hkvf : st.hasTokensKV = true)
    (hrev : st.revocations = []) (hrl : st.rateLimits = [])
    (hexp : now2 / 1000 < (now + resolveExpiry eIn st.defaultExpiry * 1000) / 1000) :
    ∃ pr st1,
      provision h sgn rnd now (some cid) (some sc) (some svc) eIn st = .ok (pr, st1) ∧
      ∃ rem, (validate h now2 st1 pr.token).1
        = .valid pr.tokenId cid sc (some svc) pr.expiresAt rem := by
  have h0 : ¬ (cid = "" ∨ svc = "") := by simp [hcid, hsvc]
  have hlt : now2 < now + resolveExpiry eIn st.defaultExpiry * 1000 := by
    by_contra hcon
    push_neg at hcon
    exact absurd (Nat.div_le_div_right hcon) (Nat.not_le_of_lt hexp)
  obtain ⟨pr, st1, hprov⟩ :
      ∃ pr st1, provision h sgn rnd now (some cid) (some sc) (some svc) eIn st
        = .ok (pr, st1) := by
    simp only [provision]
    rw [if_neg h0]
    exact ⟨_, _, rfl⟩
  refine ⟨pr, st1, hprov, ?_⟩
  simp only [provision] at hprov
  rw [if_neg h0] at hprov
  simp only [Except.ok.injEq, Prod.mk.injEq] at hprov
  obtain ⟨hpr, hst⟩ := hprov
  subst hpr
  subst hst
  refine validate_cache_hit h now2 _ _
    ⟨"tok_" ++ rnd, cid, sc, some svc, now,
      now + resolveExpiry eIn st.defaultExpiry * 1000, 0, none⟩
    ?_ ?_ ?_ ?_ ?_ ?_
  · rw [henv, generateToken_none]
    exact fmt_ca_live _
  · by_cases hdb : st.hasDB = true <;>
      simp [logAuditEvent, hdb, hkvf, hrev, kvGet_nil]
  · by_cases hdb : st.hasDB = true <;>
      simp [logAuditEvent, hdb, hkvf]
  · have harith : (now + resolveExpiry eIn st.defaultExpiry * 1000 - now) / 1000
        = resolveExpiry eIn st.defaultExpiry := by
      rw [Nat.add_sub_cancel_left]
      exact Nat.mul_div_cancel _ (by norm_num)
    have hcond : now2 / 1000 < now / 1000 + resolveExpiry eIn st.defaultExpiry := by
      rw [Nat.add_mul_div_right now (resolveExpiry eIn st.defaultExpiry)
        (by norm_num : (0:Nat) < 1000)] at hexp
      exact hexp
    by_cases hdb : st.hasDB = true <;>
      simp [logAuditEvent, hdb, hkvf, kvGet_put_same, harith, hcond]
  · exact Nat.not_lt.mpr (Nat.le_of_lt hlt)
  · by_cases hdb : st.hasDB = true <;>
      simp [logAuditEvent, hdb, hkvf, hrl]

/-- Witness for C3: provisioning `cid`/`["chittyid:read"]`/`svc` at time 0
with a one-hour TTL in the fresh environment and validating at time 1000
succeeds with the same fields. -/
theorem provision_validate_roundtrip_witness :
    ("cid" : String) ≠ "" ∧ ("svc" : String) ≠ "" ∧
    st0.environment = none ∧ st0.hasTokensKV = true ∧
    st0.revocations = [] ∧ st0.rateLimits = [] ∧
    1000 / 1000 < (0 + resolveExpiry (some 3600) st0.defaultExpiry * 1000) / 1000 ∧
    ∃ pr st1,
      provision hid hid "AAAAAAAAAAAAAAAAAAAA" 0 (some "cid")
          (some ["chittyid:read"]) (some "svc") (some 3600) st0 = .ok (pr, st1) ∧
      ∃ rem, (validate hid 1000 st1 pr.token).1
        = .valid pr.tokenId "cid" ["chittyid:read"] (some "svc") pr.expiresAt rem :=
  ⟨by decide, by decide, by decide, by decide, by decide, by decide, by decide,
   provision_validate_roundtrip hid hid "AAAAAAAAAAAAAAAAAAAA" "cid" "svc"
     ["chittyid:read"] (some 3600) 0 1000 st0 (by decide) (by decide) (by decide)
     (by decide) (by decide) (by decide) (by decide)⟩

/-- Claim C4 counterexample: when the counter for the current key is at the
tier limit, `validate` does not return a structured `RateLimited` result —
the `Error('Rate limit exceeded')` thrown inside `checkRateLimit` escapes the
call (modelled by `.thrown`). -/
theorem ratelimit_exhaustion_throws :
    (validate hid 7200000 stC2 "ca_live_x").1 = .thrown "Rate limit exceeded" := by
  decide

/-- Claim C4 amended: every outcome of `validate` is either one of the four
structured failures (`Invalid token format`, `Token has been revoked`,
`Token not found`, `Token has expired`), the escaping unstructured
`Rate limit exceeded` exception, or a structured success — rate-limit
exhaustion is the one failure that is raised rather than returned. -/
theorem validate_failure_taxonomy (h : String → String) (now : Nat) (st : Env)
    (token : String) :
    (validate h now st token).1 = .invalid "Invalid token format"
  ∨ (validate h now st token).1 = .invalid "Token has been revoked"
  ∨ (validate h now st token).1 = .invalid "Token not found"
  ∨ (validate h now st token).1 = .invalid "Token has expired"
  ∨ (validate h now st token).1 = .thrown "Rate limit exceeded"
  ∨ ∃ a b c d e f, (validate h now st token).1 = .valid a b c d e f := by
  by_cases hne : token = ""
  · simp [validate, hne]
  · simp only [validate, if_neg hne]
    rcases validateStripped_branches h now st (stripBearer token) with
      hb | hb | hb | ⟨tid, hb⟩ | ⟨td, hb⟩ | ⟨td, rem, st2, _, hb⟩ <;> rw [hb]
    · exact Or.inl rfl
    · exact Or.inr (Or.inl rfl)
    · exact Or.inr (Or.inr (Or.inl rfl))
    · exact Or.inr (Or.inr (Or.inr (Or.inl rfl)))
    · exact Or.inr (Or.inr (Or.inr (Or.inr (Or.inl rfl))))
    · exact Or.inr (Or.inr (Or.inr (Or.inr (Or.inr ⟨_, _, _, _, _, _, rfl⟩))))

/-- Claim C5 counterexample: revoking `tok_x` at time 1000000 with reason
`first` and again at time 2000000 with reason `second` leaves the durable
row's `revoked_at` at the SECOND time and the revocation marker carrying the
SECOND reason — the first call's values are overwritten, and the durable row
never stores any reason. -/
theorem revoke_twice_overwrites :
    ((revoke "tok_x" "second" 2000000
        (revoke "tok_x" "first" 1000000 stC5).2).2.db.map
      (fun r => r.revoked_at)) = [some 2000000] ∧
    kvGet 2000 (revoke "tok_x" "second" 2000000
        (revoke "tok_x" "first" 1000000 stC5).2).2.revocations "revoked:ca_live_x"
      = some ⟨"tok_x", "second", 2000000⟩ := by decide

/-- Claim C5 amended: `revoke` returns success on both calls (it is
unconditionally successful), but revocation is last-write-wins, not
set-once: after a second `revoke`, the durable row's `revoked_at` is the
second call's time (the durable row never stores a reason at all). -/
theorem revoke_idempotent_success_last_write_wins (st : Env)
    (tokenId reason1 reason2 : String) (t1 t2 : Nat) (row : TokenRow)
    (hDB : st.hasDB = true)
    (hfind : st.db.find? (fun (r : TokenRow) => r.id == tokenId) = some row) :
    (revoke tokenId reason1 t1 st).1.success = true ∧
    (revoke tokenId reason2 t2 (revoke tokenId reason1 t1 st).2).1.success = true ∧
    ((revoke tokenId reason2 t2 (revoke tokenId reason1 t1 st).2).2.db.find?
        (fun (r : TokenRow) => r.id == tokenId))
      = some { row with revoked_at := some t2 } := by
  refine ⟨rfl, rfl, ?_⟩
  have hDB1 : (revoke tokenId reason1 t1 st).2.hasDB = true := by
    rw [(revoke_flags tokenId reason1 t1 st).1, hDB]
  rw [revoke_db _ _ _ hDB1, revoke_db _ _ _ hDB, revoke_db_find, revoke_db_find, hfind]
  simp

/-- Witness for the amended C5. -/
theorem revoke_idempotent_success_last_write_wins_witness :
    stC5.hasDB = true ∧
    stC5.db.find? (fun (r : TokenRow) => r.id == "tok_x") = some rowC ∧
    ((revoke "tok_x" "first" 1000000 stC5).1.success = true ∧
     (revoke "tok_x" "second" 2000000 (revoke "tok_x" "first" 1000000 stC5).2).1.success = true ∧
     ((revoke "tok_x" "second" 2000000 (revoke "tok_x" "first" 1000000 stC5).2).2.db.find?
        (fun (r : TokenRow) => r.id == "tok_x"))
       = some { rowC with revoked_at := some 2000000 }) :=
  ⟨by decide, by decide,
   revoke_idempotent_success_last_write_wins stC5 "tok_x" "first" "second"
     1000000 2000000 rowC (by decide) (by decide)⟩

/-- Claim C6 (code bug): the `Invalid token format` branch of `validate`
returns without emitting any audit event — the state (audit trace included)
is completely unchanged, contradicting the documented
every-terminal-branch-logged property. -/
theorem invalid_format_emits_no_audit_event :
    validate hid 0 st0 "garbage" = (.invalid "Invalid token format", st0) := by
  decide

/-- Claim C7 counterexample: `provision` called with an EMPTY scope list (and
valid chittyId/service) does not fail — a JavaScript array is truthy even
when empty — and a token record is created. -/
theorem provision_empty_scope_creates_token :
    (match provision hid hid "AAAAAAAAAAAAAAAAAAAA" 0 (some "cid")
        (some ([] : List String)) (some "svc") none st0 with
      | .ok (_, st1) => st1.db.length
      | .error _ => 0) = 1 := by decide

/-- Claim C7 amended: `provision` fails with the missing-parameters error
exactly when `chittyId`, `scope` or `service` is absent (or, for the two
strings, empty — the JavaScript falsiness check); an empty scope LIST is not
rejected. -/
theorem provision_missing_params_iff (h sgn : String → String) (rnd : String)
    (now : Nat) (cid : Option String) (sc : Option (List String))
    (svc : Option String) (eIn : Option Nat) (st : Env) :
    (provision h sgn rnd now cid sc svc eIn st
        = .error "Missing required parameters: chittyId, scope, service")
      ↔ (cid = none ∨ cid = some "" ∨ sc = none ∨ svc = none ∨ svc = some "") := by
  cases cid with
  | none => simp [provision]
  | some c => cases sc with
    | none => simp [provision]
    | some s => cases svc with
      | none => simp [provision]
      | some v =>
        simp only [provision]
        split
        · next hcv =>
          simp only [Option.some.injEq, reduceCtorEq, false_or, true_iff]
          tauto
        · next hcv =>
          push_neg at hcv
          simp [hcv.1, hcv.2]

/-- Claim C8 counterexample: a cached token whose `expiresAt` equals the
current instant (boundary case `expiresAt == now`) is NOT rejected as
expired — `validate` succeeds, because the gate tests `expiresAt < now`
strictly. -/
theorem validate_boundary_expiry_accepted :
    (validate hid 5000000 stC8 "ca_live_x").1
      = .valid "tok_x" "cid" ["a"] (some "svc") 5000000 99 := by decide

/-- Claim C8 amended: for a well-formed, unrevoked token resolved from the
cache, `validate` fails with `Token has expired` exactly when
`expiresAt < now` strictly; at the boundary `expiresAt == now` the expiry
gate passes (whereas the statistics aggregate counts `expiresAt ≤ now` as
expired). -/
theorem validate_expired_iff_strictly_past (h : String → String) (now : Nat)
    (st : Env) (token : String) (td : TokenData)
    (hfmt : isValidTokenFormat token = true)
    (hnorev : kvGet (now / 1000) st.revocations ("revoked:" ++ h token) = none)
    (hkv : st.hasTokensKV = true)
    (hhit : kvGet (now / 1000) st.tokens ("token:" ++ h token) = some td) :
    ((validate h now st token).1 = .invalid "Token has expired" ↔ td.expiresAt < now) := by
  have hne : token ≠ "" := fun he => by rw [he] at hfmt; exact absurd hfmt (by decide)
  have hstrip := stripBearer_of_format hfmt
  simp only [validate, if_neg hne, hstrip, validateStripped, hfmt, Bool.not_true,
    Bool.false_eq_true, if_false, hnorev, Option.isSome_none, Bool.and_false, hkv,
    if_true, hhit]
  by_cases hexp : td.expiresAt < now
  · simp [hexp]
  · cases hcr : checkRateLimit (h token) td now (updateTokenUsage (h token) td now st) with
    | error msg => simp [hexp, hcr]
    | ok v => cases v with
      | mk rem st2 => simp [hexp, hcr]

/-- Witness for the amended C8: the cached token of `stC8` expires at
5000000, and validating at 6000000 is reported expired. -/
theorem validate_expired_iff_strictly_past_witness :
    isValidTokenFormat "ca_live_x" = true ∧
    kvGet (6000000 / 1000) stC8.revocations ("revoked:" ++ hid "ca_live_x") = none ∧
    stC8.hasTokensKV = true ∧
    kvGet (6000000 / 1000) stC8.tokens ("token:" ++ hid "ca_live_x") = some tdC8 ∧
    ((validate hid 6000000 stC8 "ca_live_x").1 = .invalid "Token has expired"
      ↔ tdC8.expiresAt < 6000000) :=
  ⟨by decide, by decide, by decide, by decide,
   validate_expired_iff_strictly_past hid 6000000 stC8 "ca_live_x" tdC8
     (by decide) (by decide) (by decide) (by decide)⟩

/-- Claim C9: whenever `validate` returns a structured invalid result (for
any of the four failure reasons), neither the durable token rows nor the
token cache are changed — in particular `requestCount` is not incremented
and `lastUsedAt` is not set, since `updateTokenUsage` runs only after every
negative gate has passed. -/
theorem validate_invalid_no_mutation (h : String → String) (now : Nat)
    (st : Env) (token e : String)
    (hinv : (validate h now st token).1 = .invalid e) :
    (validate h now st token).2.db = st.db ∧
    (validate h now st token).2.tokens = st.tokens := by
  by_cases hne : token = ""
  · simp [validate, hne]
  · simp only [validate, if_neg hne] at hinv ⊢
    rcases validateStripped_branches h now st (stripBearer token) with
      hb | hb | hb | ⟨tid, hb⟩ | ⟨td, hb⟩ | ⟨td, rem, st2, _, hb⟩ <;> rw [hb] <;>
      rw [hb] at hinv
    · exact ⟨rfl, rfl⟩
    · exact ⟨rfl, rfl⟩
    · exact ⟨rfl, rfl⟩
    · exact ⟨rfl, rfl⟩
    · exact absurd hinv (by simp)
    · exact absurd hinv (by simp)

/-- Witness for C9: the failed validation of `garbage` leaves both stores
unchanged. -/
theorem validate_invalid_no_mutation_witness :
    (validate hid 0 st0 "garbage").1 = .invalid "Invalid token format" ∧
    ((validate hid 0 st0 "garbage").2.db = st0.db ∧
     (validate hid 0 st0 "garbage").2.tokens = st0.tokens) :=
  ⟨by decide, validate_invalid_no_mutation hid 0 st0 "garbage"
    "Invalid token format" (by decide)⟩

/-- Claim C10 counterexample: for the token string `" ca_live_x"` (leading
whitespace), `Validate('Bearer ' + t)` and `Validate(t)` disagree — the
greedy `\s+` after `Bearer` swallows the extra whitespace, so the prefixed
form reaches the lookup (`Token not found`) while the bare form fails the
format gate. -/
theorem bearer_strip_not_equivalent :
    (validate hid 0 st0 ("Bearer " ++ " ca_live_x")).1 = .invalid "Token not found" ∧
    (validate hid 0 st0 " ca_live_x").1 = .invalid "Invalid token format" := by
  decide

/-- Claim C10 amended: `validate` strips one leading case-insensitive
`Bearer` plus whitespace run; for every token string `t` that is itself
unchanged by the strip and whose first character is not whitespace,
`Validate('Bearer ' + t)` equals `Validate(t)` (result and state). -/
theorem bearer_strip_equivalence (h : String → String) (now : Nat) (st : Env)
    (t : String)
    (h1 : stripBearer t = t)
    (h2 : t.data.head?.all (fun c => !isJsSpace c) = true) :
    validate h now st ("Bearer " ++ t) = validate h now st t := by
  have hne : ("Bearer " ++ t) ≠ "" := by
    intro he
    have : ("Bearer " ++ t).data = [] := by rw [he]
    rw [String.data_append] at this
    simp at this
  by_cases ht : t = ""
  · subst ht
    have : stripBearer ("Bearer " ++ "") = "" := stripBearer_bearer_append "" (by rfl)
    simp only [validate, if_neg hne, this]
    rfl
  · simp only [validate, if_neg hne, if_neg ht, stripBearer_bearer_append t h2, h1]

/-- Witness for the amended C10. -/
theorem bearer_strip_equivalence_witness :
    stripBearer "ca_live_x" = "ca_live_x" ∧
    ("ca_live_x" : String).data.head?.all (fun c => !isJsSpace c) = true ∧
    validate hid 0 st0 ("Bearer " ++ "ca_live_x") = validate hid 0 st0 "ca_live_x" :=
  ⟨by decide, by decide,
   bearer_strip_equivalence hid 0 st0 "ca_live_x" (by decide) (by decide)⟩

end ChittyAuth
